import Mathlib

/-!
Verification of the DeployShift backend core against its specification.

The development shallowly embeds the two core components of the repository:

* `src/src/services/PriceCache.ts` — the hourly-refreshed price cache for
  BTC / ETH / SOL (`PriceCacheService`);
* `src/server.ts` — the in-memory session store (`userSessions`), the
  `/api/init-session`, `/api/chat` and `/api/portfolio/:publicKey` handlers.

JavaScript numbers are modelled as rationals (`ℚ`), timestamps as `Nat`,
thrown errors as explicit error values, and the external collaborators
(CoinGecko fetch, the model invocation, the agent's balance / price queries)
as function parameters so that every behaviour of the environment is
quantified over.
-/

set_option autoImplicit false

namespace DeployShift

/-! ### Price cache data model (PriceCache.ts lines 1–9) -/

/-- One cache slot: `usd` price, `usd_24h_change` and `last_updated`
timestamp, mirroring the `PriceCache` interface of `PriceCache.ts`. -/
structure PriceEntry where
  usd : ℚ
  usd_24h_change : ℚ
  last_updated : Nat
  deriving Repr, DecidableEq

/-- The in-memory cache `private cache: PriceCache = ...`, an initially
empty object: a finite map from symbol strings to entries. -/
def PriceCache := String → Option PriceEntry

/-- The initial cache is the empty object. -/
def initialCache : PriceCache := fun _ => none

/-- Per-coin block of the CoinGecko payload (`data.bitcoin` etc.). -/
structure CoinData where
  usd : ℚ
  usd_24h_change : ℚ
  deriving Repr, DecidableEq

/-- The JSON payload returned by the CoinGecko simple-price endpoint; each
tracked coin may be present or absent. -/
structure GeckoPayload where
  bitcoin : Option CoinData
  ethereum : Option CoinData
  solana : Option CoinData
  deriving Repr, DecidableEq

/-- Outcome of the external fetch: `none` models the fetch (or JSON parsing)
throwing, which the `try`/`catch` of `updatePrices` swallows; `some p` is a
parsed payload. -/
def FetchResult := Option GeckoPayload

/-- The validation guard of `updatePrices`
(`if (!data.bitcoin || !data.ethereum || !data.solana) return;`). -/
def validPayload (p : GeckoPayload) : Bool :=
  p.bitcoin.isSome && p.ethereum.isSome && p.solana.isSome

/-- `PriceCacheService.updatePrices` (PriceCache.ts lines 45–82): on a fetch
failure or a payload missing a tracked coin the cache is returned unchanged
(the `catch` logs and the guard `return`s); otherwise the whole cache object
is replaced by a fresh three-entry table whose `last_updated` is the
completion time `now`.  The function is total — no error ever escapes to the
service's callers. -/
def updatePrices (r : FetchResult) (now : Nat) (cache : PriceCache) : PriceCache :=
  match r with
  | none => cache
  | some data =>
    match data.bitcoin, data.ethereum, data.solana with
    | some b, some e, some s =>
      fun sym =>
        if sym = "BTC" then some ⟨b.usd, b.usd_24h_change, now⟩
        else if sym = "ETH" then some ⟨e.usd, e.usd_24h_change, now⟩
        else if sym = "SOL" then some ⟨s.usd, s.usd_24h_change, now⟩
        else none
    | _, _, _ => cache

/-- `PriceCacheService.getPrice` (PriceCache.ts lines 37–39): a pure read of
the cache slot, `return this.cache[symbol]`. -/
def getPrice (cache : PriceCache) (symbol : String) : Option PriceEntry :=
  cache symbol

/-- The fixed tracked symbol set of the service. -/
def trackedSymbols : List String := ["BTC", "ETH", "SOL"]

/-! ### Price cache event semantics

The service's state evolves only through refresh attempts (the constructor's
immediate call and the hourly timer); `getPrice` calls are reads.  A trace of
events determines the reachable cache states. -/

/-- An observable event on the price cache service. -/
inductive CacheEvent where
  | refresh (r : FetchResult) (now : Nat)
  | read (symbol : String)

/-- Effect of one event on the cache state: a refresh runs `updatePrices`;
`getPrice` does not write the cache. -/
def stepCache (e : CacheEvent) (c : PriceCache) : PriceCache :=
  match e with
  | .refresh r now => updatePrices r now c
  | .read _ => c

/-- Cache state after a trace of events, starting from the empty cache. -/
def runCache (events : List CacheEvent) : PriceCache :=
  events.foldl (fun c e => stepCache e c) initialCache

/-- A refresh event that passes both the fetch and the validation guard. -/
def successfulRefresh : CacheEvent → Prop
  | .refresh (some p) _ => validPayload p = true
  | _ => False

/-- Whether an event is a `getPrice` read. -/
def isRead : CacheEvent → Prop
  | .read _ => True
  | _ => False

/-! ### Server-side data model (server.ts)

The environment variables read at startup, the agent constructed by
`new SolanaAgentKit(publicKey, RPC_URL, keys)`, the tool set derived by
`createVercelAITools(agent)`, and the per-wallet session record stored in
the `userSessions` map. -/

/-- The environment configuration the server reads
(`RPC_URL`, `OPENAI_API_KEY`, `HELIUS_API_KEY`; server.ts lines 65–79). -/
structure Env where
  rpcUrl : String
  openaiApiKey : String
  heliusApiKey : String
  deriving Repr, DecidableEq

/-- The agent handle built by `new SolanaAgentKit(publicKey, RPC_URL,
  OPENAI_API_KEY, HELIUS_API_KEY)` (server.ts lines 98–105); modelled by
its construction arguments. -/
structure SolanaAgentKit where
  publicKey : String
  rpcUrl : String
  openaiApiKey : String
  heliusApiKey : String
  deriving Repr, DecidableEq

/-- Construction of the agent from the request's public key and the process
environment, as in the `/api/init-session` handler. -/
def mkAgent (env : Env) (publicKey : String) : SolanaAgentKit :=
  ⟨publicKey, env.rpcUrl, env.openaiApiKey, env.heliusApiKey⟩

/-- The tool set derived from an agent by `createVercelAITools(agent)`;
modelled by the agent it is bound to, which is the only datum of the
derivation visible at this level. -/
structure Tools where
  agent : SolanaAgentKit
  deriving Repr, DecidableEq

/-- `createVercelAITools` binds the derived tool set to the given agent. -/
def createVercelAITools (agent : SolanaAgentKit) : Tools :=
  ⟨agent⟩

/-- A session record as stored in `userSessions`: the object with fields
`agent: solanaAgent` and `tools: createVercelAITools(solanaAgent)`
(server.ts lines 108–111). -/
structure Session where
  agent : SolanaAgentKit
  tools : Tools
  deriving Repr, DecidableEq

/-- The `userSessions` map, wallet public key to session, modelled as an
association list with unique keys maintained by `storeSet`. -/
def SessionStore := List (String × Session)

/-- The empty session store (`new Map()`). -/
def emptyStore : SessionStore := []

/-- `userSessions.get(publicKey)`: first entry with the given key. -/
def storeGet (st : SessionStore) (k : String) : Option Session :=
  (st.find? (fun p => p.1 = k)).map (fun p => p.2)

/-- `userSessions.set(publicKey, session)`: overwrite the entry for `k` in
place if present, append otherwise (JavaScript `Map.set` semantics). -/
def storeSet (st : SessionStore) (k : String) (v : Session) : SessionStore :=
  match st with
  | [] => [(k, v)]
  | (k₁, v₁) :: rest =>
    if k₁ = k then (k, v) :: rest else (k₁, v₁) :: storeSet rest k v

/-! ### Error taxonomy

Each handler throws a JavaScript `Error` with a distinguishing message and
answers HTTP 500 with that message; the conditions are modelled as
constructors. -/

/-- The distinct failure conditions surfaced by the handlers. -/
inductive ApiError where
  /-- "Public key is required" / "Message and public key are required". -/
  | missingParameter
  /-- "Session not found …". -/
  | sessionNotFound
  /-- The external model call threw; its message propagates (server.ts
  lines 155–159). -/
  | modelInvocationFailed (msg : String)
  /-- An external balance / price collaborator threw inside the portfolio
  handler; its message propagates. -/
  | externalFetchFailed (msg : String)
  deriving Repr, DecidableEq

/-! ### Chat pipeline (server.ts `/api/chat`, lines 121–160) -/

/-- The fixed system instruction passed to every `streamText` call. -/
def systemInstruction : String :=
  "You are a helpful agent that can interact onchain using the Solana Agent Kit..."

/-- The arguments of one `streamText` call: prompt, bound tool set, model
name, sampling temperature, system instruction and step cap. -/
structure ModelInvocation where
  prompt : String
  tools : Tools
  modelName : String
  temperature : ℚ
  system : String
  maxSteps : Nat
  deriving Repr, DecidableEq

/-- The single model invocation the chat handler constructs for a resolved
session and message (server.ts lines 139–146): temperature `0.7`, model
`gpt-4o-mini`, `maxSteps: 10`. -/
def chatInvocation (session : Session) (message : String) : ModelInvocation :=
  { prompt := message
    tools := session.tools
    modelName := "gpt-4o-mini"
    temperature := 7 / 10
    system := systemInstruction
    maxSteps := 10 }

/-- The external model capability: given an invocation it either throws
(with a message) or yields the stream of text fragments that
`response.textStream` produces. -/
def ModelFn := ModelInvocation → Except String (List String)

/-- Result of a chat request: the buffered response string or an error. -/
def ChatResult := Except ApiError String

/-- The `/api/chat` handler body (server.ts lines 121–160).  It validates
the two parameters (a JavaScript falsy check, so the empty string counts as
missing), resolves the session, constructs exactly one `streamText`
invocation via `chatInvocation`, and buffers the text stream by
concatenation (`fullResponse += chunk`).  The second component records the
model invocations the call issued, in order. -/
def chatHandler (model : ModelFn) (st : SessionStore) (publicKey message : String) :
    ChatResult × List ModelInvocation :=
  if message = "" ∨ publicKey = "" then
    (.error .missingParameter, [])
  else
    match storeGet st publicKey with
    | none => (.error .sessionNotFound, [])
    | some session =>
      let inv := chatInvocation session message
      match model inv with
      | .error msg => (.error (.modelInvocationFailed msg), [inv])
      | .ok chunks => (.ok (String.join chunks), [inv])

/-! ### Portfolio aggregation (server.ts `/api/portfolio/:publicKey`,
lines 182–282) -/

/-- A held token as returned by `agent.get_token_balance()`. -/
structure Token where
  symbol : String
  name : String
  balance : ℚ
  tokenAddress : String
  deriving Repr, DecidableEq

/-- The balances object: native SOL balance plus the held token list. -/
structure Balances where
  sol : ℚ
  tokens : List Token
  deriving Repr, DecidableEq

/-- `Number(x.toFixed(dp))`: rounding to `dp` decimal places (ties rounded
up, as `toFixed` does for the values at hand). -/
def roundTo (dp : Nat) (x : ℚ) : ℚ :=
  (round (x * 10 ^ dp) : ℤ) / 10 ^ dp

/-- One element of the `formattedTokens` array (server.ts lines 234–239). -/
structure FormattedToken where
  token : String
  symbol : String
  balance : ℚ
  usdValue : ℚ
  deriving Repr, DecidableEq

/-- The per-token external price lookup `agent.fetchTokenPrice(address)`;
`Except.error` models the lookup throwing. -/
def TokenPriceFn := String → Except String ℚ

/-- The body of the `balances.tokens.map(async token => …)` callback
(server.ts lines 212–240): `usdValue` starts at `0`; a USDC token is valued
1:1 at its balance; any other token is valued at `balance * price` when the
Jupiter lookup succeeds, while a thrown lookup is caught and leaves
`usdValue = 0`.  The returned record swaps `symbol`/`name` into the
`token`/`symbol` fields exactly as the source does and applies the fixed
roundings (8 decimals for balance, 2 for USD value). -/
def formatToken (fetchTokenPrice : TokenPriceFn) (token : Token) : FormattedToken :=
  let usdValue : ℚ :=
    if token.symbol = "USDC" then token.balance
    else
      match fetchTokenPrice token.tokenAddress with
      | .ok price => token.balance * price
      | .error _ => 0
  { token := token.symbol
    symbol := token.name
    balance := roundTo 8 token.balance
    usdValue := roundTo 2 usdValue }

/-- One watchlist block (`price`/`change`, with `|| 0` defaults when the
cache slot is absent). -/
structure WatchItem where
  price : ℚ
  change : ℚ
  deriving Repr, DecidableEq

/-- Read one symbol of the watchlist from the price cache, substituting `0`
for an absent entry (server.ts lines 256–269; the `|| 0` default also maps
a literal `0` price to `0`, which is the same value). -/
def watchItem (cache : PriceCache) (sym : String) : WatchItem :=
  match getPrice cache sym with
  | some e => ⟨e.usd, e.usd_24h_change⟩
  | none => ⟨0, 0⟩

/-- The portfolio response payload (server.ts lines 251–270). -/
structure PortfolioResponse where
  sol : ℚ
  solPrice : ℚ
  solUsdValue : ℚ
  tokens : List FormattedToken
  watchBTC : WatchItem
  watchETH : WatchItem
  watchSOL : WatchItem
  deriving Repr, DecidableEq

/-- The external collaborators the portfolio handler calls on the session's
agent: `get_token_balance`, the Pyth SOL price (feed-ID fetch and price
fetch collapsed into one fallible call), and the per-token Jupiter price. -/
structure AgentEffects where
  get_token_balance : SolanaAgentKit → Except String Balances
  pythSolPrice : SolanaAgentKit → Except String ℚ
  fetchTokenPrice : SolanaAgentKit → TokenPriceFn

/-- The `/api/portfolio/:publicKey` handler body (server.ts lines 182–282):
resolve the session (absence throws "Session not found"), fetch balances and
the Pyth SOL price (their failures propagate to the caller), format each
held token with `formatToken`, and read the three watchlist symbols from the
price cache. -/
def getPortfolio (io : AgentEffects) (cache : PriceCache) (st : SessionStore)
    (publicKey : String) : Except ApiError PortfolioResponse :=
  match storeGet st publicKey with
  | none => .error .sessionNotFound
  | some session =>
    match io.get_token_balance session.agent with
    | .error msg => .error (.externalFetchFailed msg)
    | .ok balances =>
      match io.pythSolPrice session.agent with
      | .error msg => .error (.externalFetchFailed msg)
      | .ok solPrice =>
        let solBalance := roundTo 8 balances.sol
        let solUsdValue := roundTo 2 (solBalance * solPrice)
        .ok
        { sol := solBalance
          solPrice := solPrice
          solUsdValue := solUsdValue
          tokens := balances.tokens.map (formatToken (io.fetchTokenPrice session.agent))
          watchBTC := watchItem cache "BTC"
          watchETH := watchItem cache "ETH"
          watchSOL := watchItem cache "SOL" }

/-! ### Server-level step semantics

The mutable process state shared by the handlers is the `userSessions` map.
Each inbound API call maps the current store to a possibly-updated store and
a result; the price cache is carried as a separate parameter since its only
writer is the refresh cycle modelled above. -/

/-- An inbound API call to one of the three modelled endpoints. -/
inductive ApiCall where
  | initSession (publicKey : String)
  | chat (publicKey message : String)
  | portfolio (publicKey : String)

/-- The result of one API call. -/
inductive ApiResult where
  | initOk
  | chatOk (response : String)
  | portfolioOk (response : PortfolioResponse)
  | failed (e : ApiError)
  deriving Repr, DecidableEq

/-- One request-handling step of the server.  `initSession` validates the
key (falsy check), builds a fresh agent and tool set from the current
environment and overwrites the map entry (server.ts lines 87–119); `chat`
and `portfolio` only read the map. -/
def serverStep (env : Env) (model : ModelFn) (io : AgentEffects) (cache : PriceCache)
    (call : ApiCall) (st : SessionStore) : SessionStore × ApiResult :=
  match call with
  | .initSession publicKey =>
    if publicKey = "" then (st, .failed .missingParameter)
    else
      let agent := mkAgent env publicKey
      let session : Session := ⟨agent, createVercelAITools agent⟩
      (storeSet st publicKey session, .initOk)
  | .chat publicKey message =>
    match chatHandler model st publicKey message with
    | (.error e, _) => (st, .failed e)
    | (.ok response, _) => (st, .chatOk response)
  | .portfolio publicKey =>
    match getPortfolio io cache st publicKey with
    | .error e => (st, .failed e)
    | .ok response => (st, .portfolioOk response)

/-! ### The bounded tool-calling loop

`streamText`'s internal reasoning / tool-call loop lives in the external
`ai` SDK, outside this repository. -/

/-- Outcome of one model step: either a final answer (the fragments streamed
for it) or a tool call whose result feeds the next context. -/
inductive StepOutcome (Ctx : Type) where
  | final (fragments : List String)
  | toolCall (next : Ctx)

/-- Modelled from the spec: the model invocation capability's internal loop
(`streamText` with `maxSteps`), absent from this repository's sources, is
"a bounded iteration: loop of model step / optional tool dispatch / context
update capped at N iterations, terminating on either a final-answer step or
budget exhaustion".  Returns the number of steps taken and the final
fragments (empty on budget exhaustion). -/
def runModelLoop {Ctx : Type} (stepFn : Ctx → StepOutcome Ctx) :
    Nat → Ctx → Nat × List String
  | 0, _ => (0, [])
  | fuel + 1, ctx =>
    match stepFn ctx with
    | .final fragments => (1, fragments)
    | .toolCall next =>
      let r := runModelLoop stepFn fuel next
      (r.1 + 1, r.2)

/-! ## Helper lemmas -/

/-- Looking up the key just written returns the written session. -/
theorem storeGet_storeSet_self (st : SessionStore) (k : String) (v : Session) :
    storeGet (storeSet st k v) k = some v := by
  induction st with
  | nil => simp [storeGet, storeSet]
  | cons hd tl ih =>
    obtain ⟨k₁, v₁⟩ := hd
    by_cases h : k₁ = k
    · simp [storeSet, h, storeGet]
    · simpa [storeSet, h, storeGet] using ih

/-- Writing one key leaves every other key's lookup unchanged. -/
theorem storeGet_storeSet_ne (st : SessionStore) (k k' : String) (v : Session)
    (h : k' ≠ k) : storeGet (storeSet st k v) k' = storeGet st k' := by
  induction st with
  | nil => simp [storeGet, storeSet, Ne.symm h]
  | cons hd tl ih =>
    obtain ⟨k₁, v₁⟩ := hd
    by_cases h₁ : k₁ = k
    · subst h₁
      simp [storeSet, storeGet, Ne.symm h]
    · by_cases h₂ : k₁ = k'
      · simp [storeSet, h₁, storeGet, h₂, h]
      · simpa [storeSet, h₁, storeGet, h₂] using ih

/-- An event that is not a successful refresh leaves the cache state
untouched. -/
theorem stepCache_of_not_successful (e : CacheEvent) (c : PriceCache)
    (h : ¬ successfulRefresh e) : stepCache e c = c := by
  cases e with
  | read sym => rfl
  | refresh r now =>
    cases r with
    | none => rfl
    | some p =>
      have hv : ¬ validPayload p = true := h
      cases hb : p.bitcoin with
      | none => simp [stepCache, updatePrices, hb]
      | some b =>
        cases he : p.ethereum with
        | none => simp [stepCache, updatePrices, hb, he]
        | some e' =>
          cases hs : p.solana with
          | none => simp [stepCache, updatePrices, hb, he, hs]
          | some s =>
            exact absurd (by simp [validPayload, hb, he, hs]) hv

/-- Folding the step function preserves any invariant preserved by every
event of the trace. -/
theorem foldl_stepCache_inv {P : PriceCache → Prop} (events : List CacheEvent)
    (c : PriceCache) (hc : P c)
    (hstep : ∀ e ∈ events, ∀ c', P c' → P (stepCache e c')) :
    P (events.foldl (fun c' e => stepCache e c') c) := by
  induction events generalizing c with
  | nil => exact hc
  | cons e rest ih =>
    exact ih _ (hstep e (by simp) c hc)
      (fun e' he' c' hc' => hstep e' (by simp [he']) c' hc')

/-- A trace with no successful refresh leaves the cache in its initial
state. -/
theorem runCache_of_no_success (events : List CacheEvent)
    (h : ∀ e ∈ events, ¬ successfulRefresh e) :
    runCache events = initialCache := by
  have := foldl_stepCache_inv (P := fun c => c = initialCache) events
    initialCache rfl
    (fun e he c' hc' => by
      rw [stepCache_of_not_successful e c' (h e he)]; exact hc')
  exact this

/-- The step count of the bounded loop never exceeds the fuel. -/
theorem runModelLoop_le {Ctx : Type} (stepFn : Ctx → StepOutcome Ctx)
    (fuel : Nat) (ctx : Ctx) : (runModelLoop stepFn fuel ctx).1 ≤ fuel := by
  induction fuel generalizing ctx with
  | zero => simp [runModelLoop]
  | succ n ih =>
    simp only [runModelLoop]
    cases stepFn ctx with
    | final fragments => exact Nat.succ_le_succ (Nat.zero_le n)
    | toolCall next => exact Nat.succ_le_succ (ih next)

/-- Rounding zero gives zero. -/
theorem roundTo_zero (dp : Nat) : roundTo dp 0 = 0 := by
  simp [roundTo]

/-- A read event leaves the cache state untouched. -/
theorem stepCache_of_read (e : CacheEvent) (c : PriceCache) (h : isRead e) :
    stepCache e c = c := by
  cases e with
  | read sym => rfl
  | refresh r now => exact absurd h (by simp [isRead])

/-! ## Claim theorems -/

/-- C2: for every cache state, a refresh attempt whose fetch throws or whose
payload omits a tracked symbol changes no cache entry (so no `lastUpdated`
advances, and since `updatePrices` is total no error reaches `getPrice`
callers); a payload containing all tracked symbols replaces the entire entry
set as a group with the fresh three-entry table. -/
theorem refresh_atomic_or_noop (cache : PriceCache) (r : FetchResult) (now : Nat) :
    ((r = none ∨ ∃ p, r = some p ∧ validPayload p = false) →
      ∀ sym, getPrice (updatePrices r now cache) sym = getPrice cache sym) ∧
    (∀ p, r = some p → validPayload p = true →
      ∃ b e s, p.bitcoin = some b ∧ p.ethereum = some e ∧ p.solana = some s ∧
        ∀ sym, getPrice (updatePrices r now cache) sym =
          (if sym = "BTC" then some ⟨b.usd, b.usd_24h_change, now⟩
           else if sym = "ETH" then some ⟨e.usd, e.usd_24h_change, now⟩
           else if sym = "SOL" then some ⟨s.usd, s.usd_24h_change, now⟩
           else none)) := by
  constructor
  · rintro (rfl | ⟨p, rfl, hv⟩) sym
    · rfl
    · have h := stepCache_of_not_successful (.refresh (some p) now) cache
        (by simpa [successfulRefresh] using hv)
      simpa [stepCache] using congrFun h sym
  · rintro p rfl hv
    cases hb : p.bitcoin with
    | none => simp [validPayload, hb] at hv
    | some b =>
      cases he : p.ethereum with
      | none => simp [validPayload, hb, he] at hv
      | some e =>
        cases hs : p.solana with
        | none => simp [validPayload, hb, he, hs] at hv
        | some s =>
          exact ⟨b, e, s, rfl, rfl, rfl, fun sym => by
            simp [updatePrices, getPrice, hb, he, hs]⟩

/-- Witness for C2 at a concrete failed attempt and a concrete successful
attempt. -/
theorem refresh_atomic_or_noop_witness :
    getPrice
      (updatePrices (some ⟨none, some ⟨3000, -2⟩, some ⟨100, 5⟩⟩) 9 initialCache)
      "ETH" = getPrice initialCache "ETH" ∧
    (∃ b e s,
      (GeckoPayload.mk (some ⟨50000, 3/2⟩) (some ⟨3000, -2⟩) (some ⟨100, 5⟩)).bitcoin
        = some b ∧
      (GeckoPayload.mk (some ⟨50000, 3/2⟩) (some ⟨3000, -2⟩) (some ⟨100, 5⟩)).ethereum
        = some e ∧
      (GeckoPayload.mk (some ⟨50000, 3/2⟩) (some ⟨3000, -2⟩) (some ⟨100, 5⟩)).solana
        = some s ∧
      ∀ sym, getPrice
          (updatePrices (some ⟨some ⟨50000, 3/2⟩, some ⟨3000, -2⟩, some ⟨100, 5⟩⟩) 9
            initialCache) sym =
        (if sym = "BTC" then some ⟨b.usd, b.usd_24h_change, 9⟩
         else if sym = "ETH" then some ⟨e.usd, e.usd_24h_change, 9⟩
         else if sym = "SOL" then some ⟨s.usd, s.usd_24h_change, 9⟩
         else none)) :=
  ⟨(refresh_atomic_or_noop initialCache
      (some ⟨none, some ⟨3000, -2⟩, some ⟨100, 5⟩⟩) 9).1
      (Or.inr ⟨_, rfl, rfl⟩) "ETH",
   (refresh_atomic_or_noop initialCache
      (some ⟨some ⟨50000, 3/2⟩, some ⟨3000, -2⟩, some ⟨100, 5⟩⟩) 9).2
      _ rfl rfl⟩

/-- C4: before any successful refresh the cache answers absent for every
symbol (in particular every tracked one); immediately after a successful
refresh attempt that started at `start` and completed at `now ≥ start`,
every tracked symbol has a present entry whose `last_updated` is at or after
`start`. -/
theorem cache_absent_before_fresh_after
    (events : List CacheEvent) (hnone : ∀ e ∈ events, ¬ successfulRefresh e)
    (cache : PriceCache) (p : GeckoPayload) (hvalid : validPayload p = true)
    (start now : Nat) (ht : start ≤ now) :
    (∀ sym, getPrice (runCache events) sym = none) ∧
    (∀ sym ∈ trackedSymbols, ∃ entry,
      getPrice (updatePrices (some p) now cache) sym = some entry ∧
      start ≤ entry.last_updated) := by
  constructor
  · intro sym
    rw [runCache_of_no_success events hnone]
    rfl
  · intro sym hsym
    cases hb : p.bitcoin with
    | none => simp [validPayload, hb] at hvalid
    | some b =>
      cases he : p.ethereum with
      | none => simp [validPayload, hb, he] at hvalid
      | some e =>
        cases hs : p.solana with
        | none => simp [validPayload, hb, he, hs] at hvalid
        | some s =>
          simp only [trackedSymbols, List.mem_cons, List.mem_nil_iff, or_false] at hsym
          rcases hsym with rfl | rfl | rfl
          · exact ⟨⟨b.usd, b.usd_24h_change, now⟩, by
              simp [updatePrices, getPrice, hb, he, hs], ht⟩
          · exact ⟨⟨e.usd, e.usd_24h_change, now⟩, by
              simp [updatePrices, getPrice, hb, he, hs], ht⟩
          · exact ⟨⟨s.usd, s.usd_24h_change, now⟩, by
              simp [updatePrices, getPrice, hb, he, hs], ht⟩

/-- Witness for C4: a trace of one failed refresh and one read, then a
successful refresh started at time 3 completing at time 7. -/
theorem cache_absent_before_fresh_after_witness :
    (∀ sym,
      getPrice (runCache [.refresh none 1, .read "BTC"]) sym = none) ∧
    (∀ sym ∈ trackedSymbols, ∃ entry,
      getPrice
        (updatePrices (some ⟨some ⟨50000, 3/2⟩, some ⟨3000, -2⟩, some ⟨100, 5⟩⟩) 7
          initialCache) sym = some entry ∧
      3 ≤ entry.last_updated) :=
  cache_absent_before_fresh_after [.refresh none 1, .read "BTC"]
    (by
      intro e he
      simp only [List.mem_cons, List.mem_nil_iff, or_false] at he
      rcases he with rfl | rfl <;> simp [successfulRefresh])
    initialCache ⟨some ⟨50000, 3/2⟩, some ⟨3000, -2⟩, some ⟨100, 5⟩⟩ rfl 3 7
    (by decide)

/-- C8: `getPrice` performs no state change (and, in the embedding, no
network effect is even expressible on the read path): extending any trace by
read events leaves the cache state identical, so repeated `getPrice` calls
between two refresh cycles all return the same result. -/
theorem getPrice_idempotent_between_refreshes
    (events reads : List CacheEvent) (sym : String)
    (h : ∀ e ∈ reads, isRead e) :
    runCache (events ++ reads) = runCache events ∧
    getPrice (runCache (events ++ reads)) sym = getPrice (runCache events) sym := by
  have hstate : runCache (events ++ reads) = runCache events := by
    have : (reads.foldl (fun c' e => stepCache e c') (runCache events)) =
        runCache events := by
      have := foldl_stepCache_inv (P := fun c => c = runCache events) reads
        (runCache events) rfl
        (fun e he c' hc' => by
          rw [stepCache_of_read e c' (h e he)]; exact hc')
      exact this
    simpa [runCache, List.foldl_append] using this
  exact ⟨hstate, by rw [hstate]⟩

/-- Witness for C8: three repeated reads after a successful refresh return
the state unchanged. -/
theorem getPrice_idempotent_between_refreshes_witness :
    runCache
        ([.refresh (some ⟨some ⟨50000, 3/2⟩, some ⟨3000, -2⟩, some ⟨100, 5⟩⟩ ) 7] ++
          [.read "BTC", .read "BTC", .read "ETH"]) =
      runCache [.refresh (some ⟨some ⟨50000, 3/2⟩, some ⟨3000, -2⟩, some ⟨100, 5⟩⟩) 7] ∧
    getPrice
        (runCache
          ([.refresh (some ⟨some ⟨50000, 3/2⟩, some ⟨3000, -2⟩, some ⟨100, 5⟩⟩) 7] ++
            [.read "BTC", .read "BTC", .read "ETH"])) "BTC" =
      getPrice
        (runCache [.refresh (some ⟨some ⟨50000, 3/2⟩, some ⟨3000, -2⟩, some ⟨100, 5⟩⟩) 7])
        "BTC" :=
  getPrice_idempotent_between_refreshes
    [.refresh (some ⟨some ⟨50000, 3/2⟩, some ⟨3000, -2⟩, some ⟨100, 5⟩⟩) 7]
    [.read "BTC", .read "BTC", .read "ETH"] "BTC"
    (by
      intro e he
      simp only [List.mem_cons, List.mem_nil_iff, or_false] at he
      rcases he with rfl | rfl | rfl <;> simp [isRead])

/-- C10: in every reachable cache state the key set is contained in the
tracked symbol set: `getPrice` answers absent for every symbol outside
BTC / ETH / SOL. -/
theorem untracked_symbol_always_absent (events : List CacheEvent) (sym : String)
    (h : sym ∉ trackedSymbols) : getPrice (runCache events) sym = none := by
  simp only [trackedSymbols, List.mem_cons, List.mem_singleton, not_or] at h
  obtain ⟨h₁, h₂, h₃⟩ := h
  have := foldl_stepCache_inv (P := fun c => c sym = none) events initialCache rfl
    (fun e _ c' hc' => by
      cases e with
      | read s => exact hc'
      | refresh r now =>
        cases r with
        | none => exact hc'
        | some p =>
          cases hb : p.bitcoin with
          | none => simpa [stepCache, updatePrices, hb] using hc'
          | some b =>
            cases he : p.ethereum with
            | none => simpa [stepCache, updatePrices, hb, he] using hc'
            | some e' =>
              cases hs : p.solana with
              | none => simpa [stepCache, updatePrices, hb, he, hs] using hc'
              | some s => simp [stepCache, updatePrices, hb, he, hs, h₁, h₂, h₃])
  exact this

/-- A payload that passes the presence-only validation of `updatePrices`
but carries a negative bitcoin price. -/
def negPayload : GeckoPayload :=
  ⟨some ⟨-1, 0⟩, some ⟨1, 0⟩, some ⟨1, 0⟩⟩

/-- Counterexample to C9 as stated: the validation guard of `updatePrices`
checks only that each tracked coin is present, so a payload with a negative
usd price passes validation and the reachable cache state after that refresh
exposes an entry with `usdPrice < 0` through `getPrice`. -/
theorem usdPrice_nonneg_counterexample :
    validPayload negPayload = true ∧
    getPrice (runCache [.refresh (some negPayload) 5]) "BTC" =
      some ⟨-1, 0, 5⟩ ∧
    ¬ (0 : ℚ) ≤ (-1 : ℚ) := by
  refine ⟨rfl, ?_, by norm_num⟩
  simp [runCache, stepCache, updatePrices, negPayload, getPrice, initialCache]

/-- A refresh event whose payload, when present, carries only non-negative
usd prices for the coins it contains; reads and failed fetches impose no
condition. -/
def nonnegFeed : CacheEvent → Prop
  | .refresh (some p) _ =>
      (∀ b, p.bitcoin = some b → 0 ≤ b.usd) ∧
      (∀ e, p.ethereum = some e → 0 ≤ e.usd) ∧
      (∀ s, p.solana = some s → 0 ≤ s.usd)
  | _ => True

/-- C9 (amended): for every reachable cache state produced by refresh
attempts whose payloads carry only non-negative usd prices, every entry
observable through `getPrice` has a non-negative `usdPrice`.  (Unamended the
claim fails: validation checks presence only, see the counterexample.) -/
theorem usdPrice_nonneg_of_nonneg_feed (events : List CacheEvent)
    (h : ∀ e ∈ events, nonnegFeed e) (sym : String) (entry : PriceEntry)
    (hget : getPrice (runCache events) sym = some entry) : 0 ≤ entry.usd := by
  have inv := foldl_stepCache_inv
    (P := fun c => ∀ s' e', c s' = some e' → 0 ≤ e'.usd) events initialCache
    (fun s' e' hc => by simp [initialCache] at hc)
    (fun e he c' hc' => by
      cases e with
      | read s => exact hc'
      | refresh r now =>
        cases r with
        | none => exact hc'
        | some p =>
          intro s' e' hs'
          cases hb : p.bitcoin with
          | none =>
            rw [show stepCache (.refresh (some p) now) c' = c' by
              simp [stepCache, updatePrices, hb]] at hs'
            exact hc' s' e' hs'
          | some b =>
            cases hee : p.ethereum with
            | none =>
              rw [show stepCache (.refresh (some p) now) c' = c' by
                simp [stepCache, updatePrices, hb, hee]] at hs'
              exact hc' s' e' hs'
            | some ec =>
              cases hss : p.solana with
              | none =>
                rw [show stepCache (.refresh (some p) now) c' = c' by
                  simp [stepCache, updatePrices, hb, hee, hss]] at hs'
                exact hc' s' e' hs'
              | some sc =>
                obtain ⟨hnb, hne, hns⟩ := h _ he
                simp only [stepCache, updatePrices, hb, hee, hss] at hs'
                by_cases h₁ : s' = "BTC"
                · simp only [h₁, if_true] at hs'
                  cases hs'
                  exact hnb b hb
                · by_cases h₂ : s' = "ETH"
                  · simp only [h₁, h₂, if_false, if_true] at hs'
                    cases hs'
                    exact hne ec hee
                  · by_cases h₃ : s' = "SOL"
                    · simp only [h₁, h₂, h₃, if_false, if_true] at hs'
                      cases hs'
                      exact hns sc hss
                    · simp [h₁, h₂, h₃] at hs')
  exact inv sym entry hget

/-- Witness for the amended C9 at a concrete trace with a non-negative
payload. -/
theorem usdPrice_nonneg_of_nonneg_feed_witness :
    (0 : ℚ) ≤ (PriceEntry.mk 50000 (3/2) 7).usd :=
  usdPrice_nonneg_of_nonneg_feed
    [.refresh (some ⟨some ⟨50000, 3/2⟩, some ⟨3000, -2⟩, some ⟨100, 5⟩⟩) 7]
    (by
      intro e he
      simp only [List.mem_cons, List.mem_nil_iff, or_false] at he
      subst he
      refine ⟨?_, ?_, ?_⟩ <;> (intro c hc; cases hc; norm_num))
    "BTC" ⟨50000, 3/2, 7⟩
    (by simp [runCache, stepCache, updatePrices, getPrice, initialCache])

/-- Witness for C10: the symbol DOGE is absent after a successful refresh. -/
theorem untracked_symbol_always_absent_witness :
    getPrice
      (runCache [.refresh (some ⟨some ⟨50000, 3/2⟩, some ⟨3000, -2⟩, some ⟨100, 5⟩⟩) 7])
      "DOGE" = none :=
  untracked_symbol_always_absent
    [.refresh (some ⟨some ⟨50000, 3/2⟩, some ⟨3000, -2⟩, some ⟨100, 5⟩⟩) 7]
    "DOGE" (by decide)

/-! ### Concrete collaborator stubs used by witnesses and counterexamples -/

/-- A concrete environment configuration. -/
def envStub : Env := ⟨"rpc", "openaiKey", "heliusKey"⟩

/-- A second, different environment configuration. -/
def envStub2 : Env := ⟨"rpc2", "openaiKey", "heliusKey"⟩

/-- A model stub answering a fixed fragment stream. -/
def modelStub : ModelFn := fun _ => .ok ["ok"]

/-- An agent-collaborator stub with empty balances and zero prices. -/
def ioStub : AgentEffects :=
  ⟨fun _ => .ok ⟨0, []⟩, fun _ => .ok 0, fun _ _ => .ok 0⟩

/-- Counterexample to C1 as stated: the chat handler checks its two request
parameters (a JavaScript falsy check) before the session lookup, so for a key
never passed to init and the empty message the call fails with the
missing-parameter condition, not `SessionNotFound`. -/
theorem never_inited_counterexample :
    storeGet emptyStore "wallet-never-inited" = none ∧
    serverStep envStub modelStub ioStub initialCache
        (.chat "wallet-never-inited" "") emptyStore =
      (emptyStore, .failed .missingParameter) ∧
    ApiError.missingParameter ≠ ApiError.sessionNotFound := by
  refine ⟨rfl, ?_, by decide⟩
  simp [serverStep, chatHandler]

/-- C1 (amended): for every non-empty wallet key `k` never passed to init
and every non-empty message, both the chat call and the portfolio call fail
with `SessionNotFound` and leave the session store unchanged.  (Unamended
the claim fails for the empty message, which trips the parameter check
before the session lookup; see the counterexample.) -/
theorem never_inited_fails_session_not_found
    (env : Env) (model : ModelFn) (io : AgentEffects) (cache : PriceCache)
    (st : SessionStore) (k m : String)
    (hk : storeGet st k = none) (hke : k ≠ "") (hm : m ≠ "") :
    serverStep env model io cache (.chat k m) st = (st, .failed .sessionNotFound) ∧
    serverStep env model io cache (.portfolio k) st = (st, .failed .sessionNotFound) := by
  constructor
  · simp [serverStep, chatHandler, hk, hke, hm]
  · simp [serverStep, getPortfolio, hk]

/-- Witness for the amended C1 at a concrete never-initialized key. -/
theorem never_inited_fails_session_not_found_witness :
    serverStep envStub modelStub ioStub initialCache
        (.chat "wallet-never-inited" "hello") emptyStore =
      (emptyStore, .failed .sessionNotFound) ∧
    serverStep envStub modelStub ioStub initialCache
        (.portfolio "wallet-never-inited") emptyStore =
      (emptyStore, .failed .sessionNotFound) :=
  never_inited_fails_session_not_found envStub modelStub ioStub initialCache
    emptyStore "wallet-never-inited" "hello" rfl (by decide) (by decide)

/-- C3: re-initialising a wallet key overwrites its stored session with one
built from the latest configuration; a chat issued after the replacement
passes exactly the new session's tool set to the model; and whenever the two
configurations differ, the tool set sent is never the old one. -/
theorem reinit_latest_wins
    (env₁ env₂ : Env) (model : ModelFn) (io : AgentEffects) (cache : PriceCache)
    (st : SessionStore) (k m : String) (hk : k ≠ "") (hm : m ≠ "") :
    storeGet ((serverStep env₂ model io cache (.initSession k)
        ((serverStep env₁ model io cache (.initSession k) st).1)).1) k =
      some ⟨mkAgent env₂ k, createVercelAITools (mkAgent env₂ k)⟩ ∧
    (chatHandler model ((serverStep env₂ model io cache (.initSession k)
        ((serverStep env₁ model io cache (.initSession k) st).1)).1) k m).2 =
      [chatInvocation ⟨mkAgent env₂ k, createVercelAITools (mkAgent env₂ k)⟩ m] ∧
    (env₁ ≠ env₂ →
      ∀ inv ∈ (chatHandler model ((serverStep env₂ model io cache (.initSession k)
          ((serverStep env₁ model io cache (.initSession k) st).1)).1) k m).2,
        inv.tools ≠ createVercelAITools (mkAgent env₁ k)) := by
  have hstep₁ : (serverStep env₁ model io cache (.initSession k) st).1 =
      storeSet st k ⟨mkAgent env₁ k, createVercelAITools (mkAgent env₁ k)⟩ := by
    simp [serverStep, hk]
  have hstep₂ : (serverStep env₂ model io cache (.initSession k)
      ((serverStep env₁ model io cache (.initSession k) st).1)).1 =
      storeSet (storeSet st k ⟨mkAgent env₁ k, createVercelAITools (mkAgent env₁ k)⟩)
        k ⟨mkAgent env₂ k, createVercelAITools (mkAgent env₂ k)⟩ := by
    simp [serverStep, hk, hstep₁]
  have hget : storeGet ((serverStep env₂ model io cache (.initSession k)
      ((serverStep env₁ model io cache (.initSession k) st).1)).1) k =
      some ⟨mkAgent env₂ k, createVercelAITools (mkAgent env₂ k)⟩ := by
    rw [hstep₂]
    exact storeGet_storeSet_self _ _ _
  have hlog : (chatHandler model ((serverStep env₂ model io cache (.initSession k)
      ((serverStep env₁ model io cache (.initSession k) st).1)).1) k m).2 =
      [chatInvocation ⟨mkAgent env₂ k, createVercelAITools (mkAgent env₂ k)⟩ m] := by
    simp only [chatHandler, hm, hk, hget]
    cases model (chatInvocation ⟨mkAgent env₂ k, createVercelAITools (mkAgent env₂ k)⟩ m) <;>
      simp
  refine ⟨hget, hlog, ?_⟩
  intro hne inv hinv
  rw [hlog] at hinv
  simp only [List.mem_cons, List.mem_nil_iff, or_false] at hinv
  subst hinv
  intro heq
  apply hne
  have : mkAgent env₂ k = mkAgent env₁ k := by
    simpa [chatInvocation, createVercelAITools] using heq
  cases env₁
  cases env₂
  simp [mkAgent] at this
  simp [this]

/-- Witness for C3: two re-initialisations with different RPC endpoints,
then a chat; the stored session and the logged invocation both carry the
second configuration's tools. -/
theorem reinit_latest_wins_witness :
    storeGet ((serverStep envStub2 modelStub ioStub initialCache (.initSession "w")
        ((serverStep envStub modelStub ioStub initialCache (.initSession "w")
          emptyStore).1)).1) "w" =
      some ⟨mkAgent envStub2 "w", createVercelAITools (mkAgent envStub2 "w")⟩ ∧
    (chatHandler modelStub ((serverStep envStub2 modelStub ioStub initialCache
        (.initSession "w") ((serverStep envStub modelStub ioStub initialCache
          (.initSession "w") emptyStore).1)).1) "w" "hi").2 =
      [chatInvocation ⟨mkAgent envStub2 "w", createVercelAITools (mkAgent envStub2 "w")⟩
        "hi"] :=
  ⟨(reinit_latest_wins envStub envStub2 modelStub ioStub initialCache emptyStore
      "w" "hi" (by decide) (by decide)).1,
   (reinit_latest_wins envStub envStub2 modelStub ioStub initialCache emptyStore
      "w" "hi" (by decide) (by decide)).2.1⟩

/-- C5: a USDC token with balance `b` is valued 1:1 — its returned USD value
is `b` rounded to 2 decimals and its balance is returned rounded to
8 decimals, for every behaviour of the per-token price feed. -/
theorem stable_asset_valued_one_to_one (fetch : TokenPriceFn) (token : Token)
    (h : token.symbol = "USDC") :
    formatToken fetch token =
      { token := token.symbol
        symbol := token.name
        balance := roundTo 8 token.balance
        usdValue := roundTo 2 token.balance } := by
  simp [formatToken, h]

/-- Witness for C5: a USDC token under a feed that always throws. -/
theorem stable_asset_valued_one_to_one_witness :
    (Token.mk "USDC" "USD Coin" (5/2) "usdc-addr").symbol = "USDC" ∧
    formatToken (fun _ => .error "feed down")
        (Token.mk "USDC" "USD Coin" (5/2) "usdc-addr") =
      { token := "USDC"
        symbol := "USD Coin"
        balance := roundTo 8 (5/2)
        usdValue := roundTo 2 (5/2) } :=
  ⟨rfl, stable_asset_valued_one_to_one (fun _ => .error "feed down")
    (Token.mk "USDC" "USD Coin" (5/2) "usdc-addr") rfl⟩

/-- C6: when the price lookup for a non-stable token throws, that token is
still present in `formattedTokens` with USD value `0`, the list keeps one
entry per held token, and every entry is computed from its own token alone —
a single lookup failure never aborts the aggregation. -/
theorem token_lookup_failure_degrades_to_zero
    (fetch : TokenPriceFn) (tokens : List Token) (i : Nat) (hi : i < tokens.length)
    (hsym : (tokens.get ⟨i, hi⟩).symbol ≠ "USDC")
    (hfail : ∃ msg, fetch ((tokens.get ⟨i, hi⟩).tokenAddress) = .error msg) :
    (tokens.map (formatToken fetch)).length = tokens.length ∧
    (∀ him : i < (tokens.map (formatToken fetch)).length,
      (tokens.map (formatToken fetch)).get ⟨i, him⟩ =
        { token := (tokens.get ⟨i, hi⟩).symbol
          symbol := (tokens.get ⟨i, hi⟩).name
          balance := roundTo 8 ((tokens.get ⟨i, hi⟩).balance)
          usdValue := 0 }) ∧
    (∀ j, ∀ hj : j < tokens.length, ∀ hjm : j < (tokens.map (formatToken fetch)).length,
      (tokens.map (formatToken fetch)).get ⟨j, hjm⟩ =
        formatToken fetch (tokens.get ⟨j, hj⟩)) := by
  obtain ⟨msg, hmsg⟩ := hfail
  simp only [List.get_eq_getElem] at hsym hmsg
  refine ⟨List.length_map _ _, ?_, ?_⟩
  · intro him
    simp only [List.get_eq_getElem, List.getElem_map]
    simp [formatToken, hsym, hmsg, roundTo_zero]
  · intro j hj hjm
    simp only [List.get_eq_getElem, List.getElem_map]

/-- Witness for C6 on a two-token list whose second token's lookup throws. -/
theorem token_lookup_failure_degrades_to_zero_witness :
    (([Token.mk "USDC" "USD Coin" 2 "usdc-addr",
       Token.mk "BONK" "Bonk" 10 "bonk-addr"].map
        (formatToken (fun _ => .error "jupiter down"))).length =
      [Token.mk "USDC" "USD Coin" 2 "usdc-addr",
       Token.mk "BONK" "Bonk" 10 "bonk-addr"].length) ∧
    (∀ him : 1 < ([Token.mk "USDC" "USD Coin" 2 "usdc-addr",
        Token.mk "BONK" "Bonk" 10 "bonk-addr"].map
          (formatToken (fun _ => .error "jupiter down"))).length,
      ([Token.mk "USDC" "USD Coin" 2 "usdc-addr",
        Token.mk "BONK" "Bonk" 10 "bonk-addr"].map
          (formatToken (fun _ => .error "jupiter down"))).get ⟨1, him⟩ =
        { token := ([Token.mk "USDC" "USD Coin" 2 "usdc-addr",
            Token.mk "BONK" "Bonk" 10 "bonk-addr"].get
              ⟨1, by decide⟩).symbol
          symbol := ([Token.mk "USDC" "USD Coin" 2 "usdc-addr",
            Token.mk "BONK" "Bonk" 10 "bonk-addr"].get
              ⟨1, by decide⟩).name
          balance := roundTo 8 (([Token.mk "USDC" "USD Coin" 2 "usdc-addr",
            Token.mk "BONK" "Bonk" 10 "bonk-addr"].get
              ⟨1, by decide⟩).balance)
          usdValue := 0 }) ∧
    (∀ j, ∀ hj : j < [Token.mk "USDC" "USD Coin" 2 "usdc-addr",
        Token.mk "BONK" "Bonk" 10 "bonk-addr"].length,
      ∀ hjm : j < ([Token.mk "USDC" "USD Coin" 2 "usdc-addr",
        Token.mk "BONK" "Bonk" 10 "bonk-addr"].map
          (formatToken (fun _ => .error "jupiter down"))).length,
      ([Token.mk "USDC" "USD Coin" 2 "usdc-addr",
        Token.mk "BONK" "Bonk" 10 "bonk-addr"].map
          (formatToken (fun _ => .error "jupiter down"))).get ⟨j, hjm⟩ =
        formatToken (fun _ => .error "jupiter down")
          ([Token.mk "USDC" "USD Coin" 2 "usdc-addr",
            Token.mk "BONK" "Bonk" 10 "bonk-addr"].get ⟨j, hj⟩)) :=
  token_lookup_failure_degrades_to_zero (fun _ => .error "jupiter down")
    [Token.mk "USDC" "USD Coin" 2 "usdc-addr",
     Token.mk "BONK" "Bonk" 10 "bonk-addr"] 1 (by decide) (by decide)
    ⟨"jupiter down", rfl⟩

/-- C7: for a resolved session and non-empty message the chat handler issues
exactly one model invocation, carrying the message as prompt, the session's
tool set, the fixed cap of 10 steps, the fixed system instruction and the
fixed temperature 0.7; the bounded tool-calling loop of that invocation
takes at most 10 steps (and terminates, being a total function of its fuel);
and the returned text is the concatenation of the streamed fragments. -/
theorem chat_single_bounded_invocation
    (model : ModelFn) (st : SessionStore) (k m : String) (session : Session)
    (hs : storeGet st k = some session) (hk : k ≠ "") (hm : m ≠ "") :
    (chatHandler model st k m).2 = [chatInvocation session m] ∧
    chatInvocation session m =
      ⟨m, session.tools, "gpt-4o-mini", 7/10, systemInstruction, 10⟩ ∧
    (∀ (Ctx : Type) (stepFn : Ctx → StepOutcome Ctx) (ctx : Ctx),
      (runModelLoop stepFn (chatInvocation session m).maxSteps ctx).1 ≤ 10) ∧
    (∀ chunks, model (chatInvocation session m) = .ok chunks →
      (chatHandler model st k m).1 = .ok (String.join chunks)) := by
  refine ⟨?_, rfl, ?_, ?_⟩
  · simp only [chatHandler, hm, hk, hs]
    cases model (chatInvocation session m) <;> simp
  · intro Ctx stepFn ctx
    exact runModelLoop_le stepFn 10 ctx
  · intro chunks hok
    simp [chatHandler, hm, hk, hs, hok]

/-- Witness for C7: a one-session store, a fixed-answer model, and a
two-step tool-calling context. -/
theorem chat_single_bounded_invocation_witness :
    (chatHandler modelStub
        [("w", ⟨mkAgent envStub "w", createVercelAITools (mkAgent envStub "w")⟩)]
        "w" "hi").2 =
      [chatInvocation ⟨mkAgent envStub "w", createVercelAITools (mkAgent envStub "w")⟩
        "hi"] ∧
    (chatHandler modelStub
        [("w", ⟨mkAgent envStub "w", createVercelAITools (mkAgent envStub "w")⟩)]
        "w" "hi").1 = .ok (String.join ["ok"]) ∧
    (runModelLoop (fun _ : Unit => .final ["done"])
        (chatInvocation ⟨mkAgent envStub "w", createVercelAITools (mkAgent envStub "w")⟩
          "hi").maxSteps ()).1 ≤ 10 :=
  ⟨(chat_single_bounded_invocation modelStub
      [("w", ⟨mkAgent envStub "w", createVercelAITools (mkAgent envStub "w")⟩)]
      "w" "hi" ⟨mkAgent envStub "w", createVercelAITools (mkAgent envStub "w")⟩
      (by decide) (by decide) (by decide)).1,
   (chat_single_bounded_invocation modelStub
      [("w", ⟨mkAgent envStub "w", createVercelAITools (mkAgent envStub "w")⟩)]
      "w" "hi" ⟨mkAgent envStub "w", createVercelAITools (mkAgent envStub "w")⟩
      (by decide) (by decide) (by decide)).2.2.2 ["ok"] rfl,
   (chat_single_bounded_invocation modelStub
      [("w", ⟨mkAgent envStub "w", createVercelAITools (mkAgent envStub "w")⟩)]
      "w" "hi" ⟨mkAgent envStub "w", createVercelAITools (mkAgent envStub "w")⟩
      (by decide) (by decide) (by decide)).2.2.1 Unit (fun _ => .final ["done"]) ()⟩

end DeployShift
